import Mathlib

/-!
# Egress-safe HTTP client of miniflux v2: embedding and verified properties

Shallow embedding of

* `internal/http/client/client.go` (`Options`, `ErrPrivateNetwork`,
  `NewClientWithOptions` and the `DialContext` closure it installs),
* the client construction of the integrations `archiveorg`, `pushover`,
  `rssbridge`,
* `pushover.NewClient`,
* `api.handler.updateUser`,

together with the Go standard-library functions these call
(`net.SplitHostPort`, `net.JoinHostPort`, `net.IP.String`, `strconv.Quote`
as used by the `%q` verb, `errors.Is`, `errors.Unwrap`).

Go strings are modelled by `String` (valid UTF-8 only), Go `int`,
`int64` and `time.Duration` by `Int`, bytes by `Nat`.
Effects (resolver, classifier, dialer, store) are explicit: every effectful
function returns the list of calls it made next to its result.
-/

deriving instance DecidableEq for Except

/-! ## Go error values -/

namespace errors

/-- A Go `error` value. `leaf id text` is an error that wraps nothing (made by
`errors.New`, or a `*net.AddrError`, ...): `id` stands for its identity and
`text` is what `Error()` returns. `wrap text inner` is the `*fmt.wrapError`
built by `fmt.Errorf` with one `%w` verb: `text` is the formatted message and
`inner` the operand of `%w`. -/
inductive error where
  | leaf (id : String) (text : String)
  | wrap (text : String) (inner : error)
  deriving DecidableEq, Repr

/-- Method `Error()`. -/
def error.Error : error → String
  | .leaf _ text => text
  | .wrap text _ => text

/-- Go `errors.Unwrap`. -/
def Unwrap : error → Option error
  | .leaf _ _ => none
  | .wrap _ inner => some inner

/-- Go `errors.Is`: walks the `Unwrap` chain of `err` and compares each link with
`target`. -/
def Is (err target : error) : Bool :=
  if err = target then true
  else
    match err with
    | .leaf _ _ => false
    | .wrap _ inner => Is inner target

end errors

/-! ## `strconv.Quote`, the `%q` verb of `fmt` on strings -/

namespace strconv

def lowerhex : List Char := "0123456789abcdef".toList

/-- The digit `lowerhex[n & 0xF]`. -/
def hexDigit (n : Nat) : Char := lowerhex.getD (n % 16) '0'

/-- Go `strconv.IsPrint`. The Latin-1 fast path is the code of the standard
library; the Unicode range tables consulted above `0xFF` are the parameter
`table`. -/
def IsPrint (table : Nat → Bool) (r : Nat) : Bool :=
  if r ≤ 0xFF then
    if 0x20 ≤ r ∧ r ≤ 0x7E then true
    else if 0xA1 ≤ r ∧ r ≤ 0xFF then r != 0xAD
    else false
  else table r

/-- Go `strconv.appendEscapedRune` with `quote = '"'`, `ASCIIonly = false`,
`graphicOnly = false`, on a valid rune. -/
def appendEscapedRune (table : Nat → Bool) (c : Char) : List Char :=
  let r := c.toNat
  if c = '"' ∨ c = '\\' then ['\\', c]
  else if IsPrint table r then [c]
  else if r = 0x07 then ['\\', 'a']
  else if r = 0x08 then ['\\', 'b']
  else if r = 0x0C then ['\\', 'f']
  else if r = 0x0A then ['\\', 'n']
  else if r = 0x0D then ['\\', 'r']
  else if r = 0x09 then ['\\', 't']
  else if r = 0x0B then ['\\', 'v']
  else if r < 0x20 ∨ r = 0x7F then ['\\', 'x', hexDigit (r / 16), hexDigit r]
  else if r < 0x10000 then
    ['\\', 'u', hexDigit (r / 4096), hexDigit (r / 256), hexDigit (r / 16), hexDigit r]
  else
    ['\\', 'U', hexDigit (r / 268435456), hexDigit (r / 16777216), hexDigit (r / 1048576),
      hexDigit (r / 65536), hexDigit (r / 4096), hexDigit (r / 256), hexDigit (r / 16),
      hexDigit r]

/-- The body of a quoted string: every rune escaped in turn. -/
def escapeRunes (table : Nat → Bool) : List Char → List Char
  | [] => []
  | c :: cs => appendEscapedRune table c ++ escapeRunes table cs

/-- Go `strconv.Quote`, which is what `%q` prints for a string operand. -/
def Quote (table : Nat → Bool) (s : String) : String :=
  String.mk ('"' :: escapeRunes table s.toList ++ ['"'])

/-- A rune that `Quote` copies unchanged: printable, and neither a double quote
nor a backslash. -/
def IsPlain (table : Nat → Bool) (c : Char) : Prop :=
  c ≠ '"' ∧ c ≠ '\\' ∧ IsPrint table c.toNat = true

end strconv

/-- Go `strings.Contains` on valid UTF-8 strings. -/
def strings.Contains (s substr : String) : Prop := substr.toList <:+: s.toList

instance (s substr : String) : Decidable (strings.Contains s substr) := by
  unfold strings.Contains; infer_instance

/-! ## Package `net`: addresses -/

namespace net

/-- Position of the first `c` in `s` (Go `bytealg.IndexByteString`), `none` for `-1`. -/
def IndexByteString : List Char → Char → Option Nat
  | [], _ => none
  | x :: xs, c => if x = c then some 0 else (IndexByteString xs c).map (· + 1)

/-- Position of the last `c` in `s` (Go `bytealg.LastIndexByteString`), `none` for `-1`. -/
def LastIndexByteString : List Char → Char → Option Nat
  | [], _ => none
  | x :: xs, c =>
    match LastIndexByteString xs c with
    | some i => some (i + 1)
    | none => if x = c then some 0 else none

/-- The error `&AddrError{Err: why, Addr: addr}`; its message is that of
`(*AddrError).Error`. -/
def addrErr (addr why : String) : errors.error :=
  .leaf "net.AddrError" (if addr ≠ "" then "address " ++ addr ++ ": " ++ why else why)

/-- Go `net.SplitHostPort`. -/
def SplitHostPort (hostport : String) : Except errors.error (String × String) :=
  let missingPort := "missing port in address"
  let tooManyColons := "too many colons in address"
  let s := hostport.toList
  match LastIndexByteString s ':' with
  | none => .error (addrErr hostport missingPort)
  | some i =>
    let bracketed : Except errors.error (List Char × Nat × Nat) :=
      if s.head? = some '[' then
        match IndexByteString s ']' with
        | none => .error (addrErr hostport "missing ']' in address")
        | some e =>
          if e + 1 = s.length then .error (addrErr hostport missingPort)
          else if e + 1 = i then .ok ((s.take e).drop 1, 1, e + 1)
          else if s.get? (e + 1) = some ':' then .error (addrErr hostport tooManyColons)
          else .error (addrErr hostport missingPort)
      else
        let host := s.take i
        if (IndexByteString host ':').isSome then .error (addrErr hostport tooManyColons)
        else .ok (host, 0, 0)
    match bracketed with
    | .error err => .error err
    | .ok (host, j, k) =>
      if (IndexByteString (s.drop j) '[').isSome then
        .error (addrErr hostport "unexpected '[' in address")
      else if (IndexByteString (s.drop k) ']').isSome then
        .error (addrErr hostport "unexpected ']' in address")
      else .ok (String.mk host, String.mk (s.drop (i + 1)))

/-- Go `net.JoinHostPort`. -/
def JoinHostPort (host port : String) : String :=
  if (IndexByteString host.toList ':').isSome then "[" ++ host ++ "]:" ++ port
  else host ++ ":" ++ port

/-- Go `net.IP`, a byte slice: `nil` is the nil slice, `bytes b` a non-nil slice
holding the bytes `b`. -/
inductive IP where
  | nil
  | bytes (b : List Nat)
  deriving DecidableEq, Repr

/-- Go `len(ip)`. -/
def IP.len : IP → Nat
  | .nil => 0
  | .bytes b => b.length

/-- The bytes of the slice. -/
def IP.data : IP → List Nat
  | .nil => []
  | .bytes b => b

/-- Go `(IP).To4`: the 4-byte form of an IPv4 address, `nil` otherwise. -/
def IP.To4 (ip : IP) : IP :=
  let b := ip.data
  if b.length = 4 then ip
  else if b.length = 16 ∧ b.take 10 = List.replicate 10 0 ∧ b.get? 10 = some 0xff
      ∧ b.get? 11 = some 0xff then .bytes (b.drop 12)
  else .nil

/-- Go `net.hexString`: two lower-case hex digits per byte. -/
def hexString : List Nat → List Char
  | [] => []
  | b :: bs => strconv.hexDigit (b / 16) :: strconv.hexDigit b :: hexString bs

/-- Dotted decimal form of four bytes (`netip.Addr.string4`). -/
def string4 (b : List Nat) : String :=
  ".".intercalate (b.map Nat.repr)

/-- The eight 16-bit groups of a 16-byte address (`netip.Addr.v6u16`). -/
def v6u16 : List Nat → List Nat
  | hi :: lo :: rest => (hi * 256 + lo) :: v6u16 rest
  | _ => []

/-- Go `netip.appendHex`: a 16-bit group in hex without leading zeros. -/
def appendHex (x : Nat) : List Char :=
  (if x ≥ 0x1000 then [strconv.hexDigit (x / 4096)] else [])
    ++ (if x ≥ 0x100 then [strconv.hexDigit (x / 256)] else [])
    ++ (if x ≥ 0x10 then [strconv.hexDigit (x / 16)] else [])
    ++ [strconv.hexDigit x]

/-- Length of the run of zero groups that starts the list. -/
def zeroRun : List Nat → Nat
  | 0 :: rest => zeroRun rest + 1
  | _ => 0

/-- First loop of `netip.Addr.appendTo6`: scanning the groups from index `i`,
the start and end of the longest run of at least two zero groups (the first such
run wins ties), given the best run `best` found so far. -/
def longestZeroRun : List Nat → Nat → Option (Nat × Nat) → Option (Nat × Nat)
  | [], _, best => best
  | g :: rest, i, best =>
    let l := zeroRun (g :: rest)
    let cur := match best with
      | some (s, e) => e - s
      | none => 0
    longestZeroRun rest (i + 1) (if l ≥ 2 ∧ l > cur then some (i, i + l) else best)

/-- Second loop of `netip.Addr.appendTo6`, from group index `i` on. -/
def appendGroups (groups : List Nat) (zero : Option (Nat × Nat)) : Nat → Nat → List Char
  | 0, _ => []
  | fuel + 1, i =>
    if i ≥ 8 then []
    else
      match zero with
      | some (zs, ze) =>
        if i = zs then
          if ze ≥ 8 then [':', ':']
          else [':', ':'] ++ appendHex (groups.getD ze 0) ++ appendGroups groups zero fuel (ze + 1)
        else
          (if i > 0 then [':'] else []) ++ appendHex (groups.getD i 0)
            ++ appendGroups groups zero fuel (i + 1)
      | none =>
        (if i > 0 then [':'] else []) ++ appendHex (groups.getD i 0)
          ++ appendGroups groups zero fuel (i + 1)

/-- Text form of a 16-byte address without zone (`netip.Addr.string6`). -/
def string6 (b : List Nat) : String :=
  let groups := v6u16 b
  String.mk (appendGroups groups (longestZeroRun groups 0 none) 8 0)

/-- Go `(IP).String`. -/
def IP.String (ip : IP) : String :=
  if ip.len = 0 then "<nil>"
  else if ip.len ≠ 4 ∧ ip.len ≠ 16 then String.mk ('?' :: hexString ip.data)
  else if ip.To4.len = 4 then string4 ip.To4.data
  else string6 ip.data

end net

/-! ## Package `internal/http/client` -/

namespace client

open errors net

/-- Source: `var ErrPrivateNetwork = errors.New(...)`. -/
def ErrPrivateNetwork : error :=
  .leaf "client.ErrPrivateNetwork" "client: connection to private network is blocked"

/-- Source: `type Options struct`. `Timeout` is a `time.Duration` (nanoseconds). -/
structure Options where
  Timeout : Int
  BlockPrivateNetworks : Bool
  deriving DecidableEq, Repr

/-- Go `net.Dialer`, with the one field the source sets. -/
structure Dialer where
  Timeout : Int
  deriving DecidableEq, Repr

/-- A `net.Conn` handle. -/
abbrev Conn := Nat

/-- What lies outside the source and is called by the dial hook.
`LookupIP` is `net.LookupIP`, `IsNonPublicIP` is `urllib.IsNonPublicIP`,
`DialContext` is `(*net.Dialer).DialContext` (receiver first; the context is
not modelled) returning the Go pair `(net.Conn, error)`, and `isPrintTable`
holds the Unicode tables of `strconv.IsPrint`. -/
structure Env where
  isPrintTable : Nat → Bool
  LookupIP : String → Except error (List IP)
  IsNonPublicIP : IP → Bool
  DialContext : Dialer → String → String → Option Conn × Option error

/-- One call made by the dial hook. -/
inductive Event where
  | lookup (host : String)
  | classify (ip : IP)
  | dial (dialer : Dialer) (network addr : String)
  deriving DecidableEq, Repr

/-- Whether the event is a call of the underlying dialer. -/
def Event.isDial : Event → Bool
  | .dial _ _ _ => true
  | _ => false

/-- Whether the event is a call of the classifier. -/
def Event.isClassify : Event → Bool
  | .classify _ => true
  | _ => false

/-- Result of one call of the dial hook: the Go pair `(net.Conn, error)` and the
calls made, in order. -/
structure Outcome where
  conn : Option Conn
  err : Option error
  trace : List Event

/-- Source `client.go` lines 49-55: the loop
`for _, ip := range ips { if !urllib.IsNonPublicIP(ip) { safeIP = ip; break } }`
started with `safeIP` nil. Returns the final `safeIP` and the classifier calls made. -/
def selectSafeIP (isNonPublicIP : IP → Bool) : List IP → IP × List Event
  | [] => (IP.nil, [])
  | ip :: rest =>
    if !isNonPublicIP ip then (ip, [Event.classify ip])
    else
      let r := selectSafeIP isNonPublicIP rest
      (r.1, Event.classify ip :: r.2)

/-- Source `client.go` line 58: the error
`fmt.Errorf("%w: host %q resolves to a non-public IP address", ErrPrivateNetwork, host)`. -/
def blockedError (env : Env) (host : String) : error :=
  .wrap (ErrPrivateNetwork.Error ++ ": host " ++ strconv.Quote env.isPrintTable host
    ++ " resolves to a non-public IP address") ErrPrivateNetwork

end client

/-- Source `client.go` lines 38-63: the closure installed as
`http.Transport.DialContext`, which captures `dialer`. -/
def client.NewClientWithOptions.DialContext (env : client.Env) (dialer : client.Dialer)
    (network addr : String) : client.Outcome :=
  match net.SplitHostPort addr with
  | .error err =>
    ⟨none, some (.wrap ("client: unable to parse address " ++ strconv.Quote env.isPrintTable addr
      ++ ": " ++ err.Error) err), []⟩
  | .ok (host, port) =>
    match env.LookupIP host with
    | .error err =>
      ⟨none, some (.wrap ("client: unable to resolve host "
        ++ strconv.Quote env.isPrintTable host ++ ": " ++ err.Error) err),
        [client.Event.lookup host]⟩
    | .ok ips =>
      let sel := client.selectSafeIP env.IsNonPublicIP ips
      let safeIP := sel.1
      if safeIP = net.IP.nil then
        ⟨none, some (client.blockedError env host), client.Event.lookup host :: sel.2⟩
      else
        let safeAddr := net.JoinHostPort safeIP.String port
        let r := env.DialContext dialer network safeAddr
        ⟨r.1, r.2, client.Event.lookup host :: sel.2 ++ [client.Event.dial dialer network safeAddr]⟩

namespace client

/-- Go `http.Transport`, with the one field the source sets; `none` is a nil func. -/
structure Transport where
  DialContext : Option (String → String → Outcome)

/-- Go `http.Client`; `Transport = none` is the nil `RoundTripper`. -/
structure Client where
  Timeout : Int
  Transport : Option Transport

/-- Source: `func NewClientWithOptions(opts Options) *http.Client`. -/
def NewClientWithOptions (env : Env) (opts : Options) : Client :=
  if !opts.BlockPrivateNetworks then
    { Timeout := opts.Timeout, Transport := none }
  else
    let dialer : Dialer := { Timeout := opts.Timeout }
    let transport : Transport :=
      { DialContext := some (NewClientWithOptions.DialContext env dialer) }
    { Timeout := opts.Timeout, Transport := some transport }

end client

/-! ## Package `internal/urllib`: the address classifier -/

namespace urllib

/-- Whether the first `n` bits of the byte strings `ip` and `base` agree (a CIDR
match, byte by byte as with a network mask). -/
def matchBits : List Nat → List Nat → Nat → Bool
  | x :: xs, y :: ys, n =>
    if n = 0 then true
    else if n ≥ 8 then x == y && matchBits xs ys (n - 8)
    else x / 2 ^ (8 - n) == y / 2 ^ (8 - n)
  | _, _, n => n == 0

/-- An address block `base/bits`. -/
structure Block where
  base : List Nat
  bits : Nat
  deriving DecidableEq, Repr

/-- Membership of the address bytes `ip` in a block of the same family. -/
def Block.contains (blk : Block) (ip : List Nat) : Bool :=
  ip.length == blk.base.length && matchBits ip blk.base blk.bits

/-- The IPv4 blocks the spec (section 4.1) lists as non-public: `127.0.0.0/8`,
`169.254.0.0/16`, `10.0.0.0/8`, `172.16.0.0/12`, `192.168.0.0/16`, the multicast
range `224.0.0.0/4` and the unspecified address `0.0.0.0`. -/
def nonPublicBlocks4 : List Block :=
  [⟨[127, 0, 0, 0], 8⟩, ⟨[169, 254, 0, 0], 16⟩, ⟨[10, 0, 0, 0], 8⟩, ⟨[172, 16, 0, 0], 12⟩,
   ⟨[192, 168, 0, 0], 16⟩, ⟨[224, 0, 0, 0], 4⟩, ⟨[0, 0, 0, 0], 32⟩]

/-- The IPv6 blocks the spec (section 4.1) lists as non-public: `::1`, `fe80::/10`,
`fc00::/7`, the multicast range `ff00::/8` and the unspecified address `::`. -/
def nonPublicBlocks6 : List Block :=
  [⟨[0, 0, 0, 0, 0, 0, 0, 0, 0, 0, 0, 0, 0, 0, 0, 1], 128⟩,
   ⟨[0xfe, 0x80, 0, 0, 0, 0, 0, 0, 0, 0, 0, 0, 0, 0, 0, 0], 10⟩,
   ⟨[0xfc, 0, 0, 0, 0, 0, 0, 0, 0, 0, 0, 0, 0, 0, 0, 0], 7⟩,
   ⟨[0xff, 0, 0, 0, 0, 0, 0, 0, 0, 0, 0, 0, 0, 0, 0, 0], 8⟩,
   ⟨[0, 0, 0, 0, 0, 0, 0, 0, 0, 0, 0, 0, 0, 0, 0, 0], 128⟩]

/-- Modelled from the spec: `urllib.IsNonPublicIP`, the Address Classifier, whose
source file `internal/urllib` is missing. Spec section 4.1: it must classify as
non-public `127.0.0.0/8` and `::1`; `169.254.0.0/16` and `fe80::/10`; `10.0.0.0/8`,
`172.16.0.0/12`, `192.168.0.0/16`; `fc00::/7`; all multicast ranges; the
unspecified address (`0.0.0.0`, `::`); an input that is no IP address is never
public. An IPv4 address is classified as such in its 4-byte and in its 16-byte
form. -/
def IsNonPublicIP (ip : net.IP) : Bool :=
  if ip.To4.len = 4 then nonPublicBlocks4.any (fun blk => blk.contains ip.To4.data)
  else if ip.len = 16 then nonPublicBlocks6.any (fun blk => blk.contains ip.data)
  else true

end urllib

/-! ## The integrations: how each obtains its HTTP client -/

namespace time

/-- Go `time.Second`, in nanoseconds. -/
def Second : Int := 1000000000

end time

namespace archiveorg

/-- Source: `const defaultClientTimeout = 30 * time.Second`. -/
def defaultClientTimeout : Int := 30 * time.Second

/-- Source `archiveorg.go` line 36, in `(*Client).SendURL`: the `client.Options`
literal passed to `client.NewClientWithOptions`. The field `BlockPrivateNetworks`
is not set there and so has Go's zero value; the deployment flag
`config.Opts.IntegrationAllowPrivateNetworks()` is not read. -/
def SendURL.options (_integrationAllowPrivateNetworks : Bool) : client.Options :=
  { Timeout := defaultClientTimeout, BlockPrivateNetworks := false }

/-- Source `archiveorg.go` line 36: the HTTP client `SendURL` sends its request with. -/
def SendURL.httpClient (env : client.Env) (integrationAllowPrivateNetworks : Bool) :
    client.Client :=
  client.NewClientWithOptions env (SendURL.options integrationAllowPrivateNetworks)

end archiveorg

namespace rssbridge

/-- Source: `const defaultClientTimeout = 30 * time.Second`. -/
def defaultClientTimeout : Int := 30 * time.Second

/-- Source `rssbridge.go` line 55, in `DetectBridges`: the `client.Options` literal
passed to `client.NewClientWithOptions`, given the value of
`config.Opts.IntegrationAllowPrivateNetworks()`. -/
def DetectBridges.options (integrationAllowPrivateNetworks : Bool) : client.Options :=
  { Timeout := defaultClientTimeout, BlockPrivateNetworks := !integrationAllowPrivateNetworks }

/-- Source `rssbridge.go` line 55: the HTTP client of `DetectBridges`. -/
def DetectBridges.httpClient (env : client.Env) (integrationAllowPrivateNetworks : Bool) :
    client.Client :=
  client.NewClientWithOptions env (DetectBridges.options integrationAllowPrivateNetworks)

end rssbridge

namespace pushover

/-- Source: `defaultClientTimeout = 10 * time.Second`. -/
def defaultClientTimeout : Int := 10 * time.Second

/-- Source: `defaultPushoverURL = "https://api.pushover.net"`. -/
def defaultPushoverURL : String := "https://api.pushover.net"

/-- Source: `type Client struct`. The field `urlPrefix` is the source's field
named `prefix`. -/
structure Client where
  urlPrefix : String
  token : String
  user : String
  device : String
  priority : Int
  deriving DecidableEq, Repr

/-- Source: `func NewClient(user, token string, priority int, device, urlPrefix string) *Client`. -/
def NewClient (user token : String) (priority : Int) (device urlPrefix : String) : Client :=
  let urlPrefix := if urlPrefix = "" then defaultPushoverURL else urlPrefix
  let priority := if priority < -2 then -2 else priority
  let priority := if priority > 2 then 2 else priority
  { user := user, token := token, device := device, urlPrefix := urlPrefix, priority := priority }

/-- Source `pushover.go` line 120, in `(*Client).makeRequest`: the `client.Options`
literal passed to `client.NewClientWithOptions`, given the value of
`config.Opts.IntegrationAllowPrivateNetworks()`. -/
def makeRequest.options (integrationAllowPrivateNetworks : Bool) : client.Options :=
  { Timeout := defaultClientTimeout, BlockPrivateNetworks := !integrationAllowPrivateNetworks }

/-- Source `pushover.go` line 120: the HTTP client of `makeRequest`. -/
def makeRequest.httpClient (env : client.Env) (integrationAllowPrivateNetworks : Bool) :
    client.Client :=
  client.NewClientWithOptions env (makeRequest.options integrationAllowPrivateNetworks)

end pushover

/-! ## Package `internal/api`: `updateUser` -/

namespace model

/-- Go `model.User`: the field `ID`, which the handler reads; `rest` stands for
all the other fields, of a type `ρ` left open. -/
structure User (ρ : Type) where
  ID : Int
  rest : ρ
  deriving DecidableEq, Repr

/-- Go `model.UserModificationRequest`: the field `IsAdmin` (a `*bool`, nil is
`none`), which the handler reads; `rest` stands for all the other fields, of a
type `κ` left open. -/
structure UserModificationRequest (κ : Type) where
  IsAdmin : Option Bool
  rest : κ
  deriving DecidableEq, Repr

end model

namespace api

open errors model

/-- What `updateUser` reads from the HTTP request `r`: the route parameter
`userID`, the outcome of decoding the JSON body, `request.IsAdminUser(r)` and
`request.UserID(r)`. -/
structure Request (κ : Type) where
  RouteUserID : Int
  Body : Except error (UserModificationRequest κ)
  IsAdminUser : Bool
  UserID : Int

/-- The storage layer and the helpers of other packages that `updateUser` calls,
over a storage state `σ`. `UserByID` returns Go's `(*model.User, error)`,
`ValidateUserModification` the message of the validation error if there is one,
`Patch` is `(*UserModificationRequest).Patch` and `UpdateUser` returns the new
storage state and Go's `error`. -/
structure Deps (σ ρ κ : Type) where
  UserByID : σ → Int → Except error (Option (User ρ))
  ValidateUserModification : σ → Int → UserModificationRequest κ → Option String
  Patch : UserModificationRequest κ → User ρ → User ρ
  UpdateUser : σ → User ρ → σ × Option error

/-- The JSON response written by the handler. -/
inductive Response (ρ : Type) where
  | BadRequest (message : String)
  | ServerError (err : error)
  | NotFound
  | Forbidden
  | Created (user : User ρ)
  deriving DecidableEq, Repr

/-- One call made by `updateUser`. -/
inductive Call (ρ : Type) where
  | UserByID (userID : Int)
  | ValidateUserModification (userID : Int)
  | Patch (user : User ρ)
  | UpdateUser (user : User ρ)
  deriving DecidableEq, Repr

/-- Result of the handler: the response, the storage state afterwards and the
calls made, in order. -/
structure Result (σ ρ : Type) where
  response : Response ρ
  store : σ
  calls : List (Call ρ)

/-- Source: `func (h *handler) updateUser(w http.ResponseWriter, r *http.Request)`. -/
def updateUser {σ ρ κ : Type} (deps : Deps σ ρ κ) (store : σ) (r : Request κ) : Result σ ρ :=
  let userID := r.RouteUserID
  match r.Body with
  | .error err => ⟨.BadRequest err.Error, store, []⟩
  | .ok userModificationRequest =>
    match deps.UserByID store userID with
    | .error err => ⟨.ServerError err, store, [.UserByID userID]⟩
    | .ok none => ⟨.NotFound, store, [.UserByID userID]⟩
    | .ok (some originalUser) =>
      let denied : Option (Response ρ) :=
        if !r.IsAdminUser then
          if originalUser.ID ≠ r.UserID then some .Forbidden
          else if userModificationRequest.IsAdmin = some true then
            some (.BadRequest "only administrators can change permissions of standard users")
          else none
        else none
      match denied with
      | some response => ⟨response, store, [.UserByID userID]⟩
      | none =>
        match deps.ValidateUserModification store originalUser.ID userModificationRequest with
        | some validationErr =>
          ⟨.BadRequest validationErr, store,
            [.UserByID userID, .ValidateUserModification originalUser.ID]⟩
        | none =>
          let patched := deps.Patch userModificationRequest originalUser
          let upd := deps.UpdateUser store patched
          match upd.2 with
          | some err =>
            ⟨.ServerError err, upd.1,
              [.UserByID userID, .ValidateUserModification originalUser.ID, .Patch originalUser,
               .UpdateUser patched]⟩
          | none =>
            ⟨.Created patched, upd.1,
              [.UserByID userID, .ValidateUserModification originalUser.ID, .Patch originalUser,
               .UpdateUser patched]⟩

end api

/-! ## Concrete environments for the worked examples -/

namespace Scenario

open errors net

/-- The address `93.184.216.34`. -/
def publicIP : IP := .bytes [93, 184, 216, 34]

/-- The address `10.0.0.5`. -/
def privateIP : IP := .bytes [10, 0, 0, 5]

/-- The address `127.0.0.1` in the 16-byte form `net.LookupIP` gives an IPv4 literal. -/
def loopbackIP : IP := .bytes [0, 0, 0, 0, 0, 0, 0, 0, 0, 0, 255, 255, 127, 0, 0, 1]

/-- The address `93.184.216.34` in the 16-byte form `net.LookupIP` gives an IPv4
literal. -/
def publicLiteralIP : IP := .bytes [0, 0, 0, 0, 0, 0, 0, 0, 0, 0, 255, 255, 93, 184, 216, 34]

/-- The address `fe80::1`. -/
def linkLocalIP : IP := .bytes [0xfe, 0x80, 0, 0, 0, 0, 0, 0, 0, 0, 0, 0, 0, 0, 0, 1]

/-- A resolver error. -/
def noSuchHost : error := .leaf "net.DNSError" "lookup nosuch.invalid: no such host"

/-- A connect error. -/
def refused : error := .leaf "syscall.ECONNREFUSED" "connect: connection refused"

/-- A test environment: `example.org` resolves to `[10.0.0.5, 93.184.216.34]`,
`intranet.example` to `[10.0.0.5]`, `empty.example` to the empty list, the
literals `127.0.0.1`, `93.184.216.34` and `fe80::1%"` (zone `"`) to themselves, nothing else
resolves; the classifier is `urllib.IsNonPublicIP`; only `93.184.216.34:443`
accepts connections. -/
def env : client.Env where
  isPrintTable := fun _ => false
  LookupIP := fun host =>
    if host = "example.org" then .ok [privateIP, publicIP]
    else if host = "intranet.example" then .ok [privateIP]
    else if host = "empty.example" then .ok []
    else if host = "127.0.0.1" then .ok [loopbackIP]
    else if host = "93.184.216.34" then .ok [publicLiteralIP]
    else if host = "fe80::1%\"" then .ok [linkLocalIP]
    else .error noSuchHost
  IsNonPublicIP := urllib.IsNonPublicIP
  DialContext := fun _ _ addr =>
    if addr = "93.184.216.34:443" then (some 1, none) else (none, some refused)

/-- The dialer built by `NewClientWithOptions` for a timeout of five seconds. -/
def dialer : client.Dialer := { Timeout := 5 * time.Second }

/-- The other fields of a user in the examples. -/
structure UserFields where
  Username : String
  IsAdmin : Bool
  deriving DecidableEq, Repr

/-- The other fields of a modification request in the examples. -/
structure RequestFields where
  Username : Option String
  deriving DecidableEq, Repr

/-- A storage state: the list of stored users. -/
abbrev Store := List (model.User UserFields)

/-- A storage layer over `Store`: `UserByID` finds the user with the given ID,
validation rejects an empty username, `Patch` overwrites the fields the request
sets, `UpdateUser` replaces the stored user of the same ID. -/
def deps : api.Deps Store UserFields RequestFields where
  UserByID := fun store userID => .ok (store.find? (fun u => u.ID == userID))
  ValidateUserModification := fun _ _ req =>
    if req.rest.Username = some "" then some "error.user_mandatory_fields" else none
  Patch := fun req u =>
    { ID := u.ID,
      rest := { Username := req.rest.Username.getD u.rest.Username,
                IsAdmin := req.IsAdmin.getD u.rest.IsAdmin } }
  UpdateUser := fun store u => (store.map (fun v => if v.ID == u.ID then u else v), none)

/-- Two stored users: an administrator (ID 1) and a standard user (ID 2). -/
def store : Store := [⟨1, ⟨"admin", true⟩⟩, ⟨2, ⟨"alice", false⟩⟩]

/-- The standard user 2 asks to rename user 1. -/
def renameOther : api.Request RequestFields := ⟨1, .ok ⟨none, ⟨some "root"⟩⟩, false, 2⟩

/-- The standard user 2 asks to become an administrator. -/
def promoteSelf : api.Request RequestFields := ⟨2, .ok ⟨some true, ⟨none⟩⟩, false, 2⟩

/-- The standard user 2 asks to make user 1 an administrator. -/
def promoteOther : api.Request RequestFields := ⟨1, .ok ⟨some true, ⟨none⟩⟩, false, 2⟩

/-- A JSON decoding error. -/
def syntaxError : error := .leaf "json.SyntaxError" "unexpected end of JSON input"

/-- The standard user 2 sends a body that does not decode, on user 1. -/
def malformedOther : api.Request RequestFields := ⟨1, .error syntaxError, false, 2⟩

/-- The standard user 2 asks to rename itself. -/
def renameSelf : api.Request RequestFields := ⟨2, .ok ⟨none, ⟨some "bob"⟩⟩, false, 2⟩

end Scenario

/-! ## Sanity checks of the embedding on concrete inputs -/

open net in
example : SplitHostPort "example.org:443" = .ok ("example.org", "443") := by decide
open net in
example : SplitHostPort "[fe80::1%\"]:80" = .ok ("fe80::1%\"", "80") := by decide
open net in
example : SplitHostPort "[::1]" = .error (addrErr "[::1]" "missing port in address") := by decide
open net in
example : SplitHostPort "a:b:c" = .error (addrErr "a:b:c" "too many colons in address") := by decide
open net in
example : SplitHostPort "[a]b:c" = .error (addrErr "[a]b:c" "missing port in address") := by decide
open net in
example : SplitHostPort "[a]:b:c" = .error (addrErr "[a]:b:c" "too many colons in address") := by decide
open net in
example : SplitHostPort "[a[b]:c" = .error (addrErr "[a[b]:c" "unexpected '[' in address") := by decide
open net in
example : SplitHostPort "[a]:c]" = .error (addrErr "[a]:c]" "unexpected ']' in address") := by decide
open net in
example : SplitHostPort ":80" = .ok ("", "80") := by decide
open net in
example : (IP.bytes [93, 184, 216, 34]).String = "93.184.216.34" := by decide
open net in
example : (IP.bytes [0,0,0,0,0,0,0,0,0,0,255,255,127,0,0,1]).String = "127.0.0.1" := by decide
open net in
example : (IP.bytes [0xfe,0x80,0,0,0,0,0,0,0,0,0,0,0,0,0,1]).String = "fe80::1" := by decide
open net in
example : (IP.bytes [0x20,0x01,0x0d,0xb8,0,0,0,0,0,1,0,0,0,0,0,1]).String = "2001:db8::1:0:0:1" := by decide
open net in
example : (IP.bytes [0,0,0,0,0,0,0,0,0,0,0,0,0,0,0,0]).String = "::" := by decide
open net in
example : (IP.bytes [0,1,0,0,0,0,0,0,0,0,0,0,0,0,0,0]).String = "1::" := by decide
open net in
example : (IP.bytes [0,1,0,0,0,2,0,3,0,4,0,5,0,6,0,7]).String = "1:0:2:3:4:5:6:7" := by decide
open net in
example : (IP.bytes [1,2,3]).String = "?010203" := by decide
open net in
example : IP.nil.String = "<nil>" := by decide
open net in
example : JoinHostPort "fe80::1" "80" = "[fe80::1]:80" := by decide
example : strconv.Quote (fun _ => false) "a\"b\\c\n\t\x01\x7fé"
    = "\"a\\\"b\\\\c\\n\\t\\x01\\x7fé\"" := by
  decide
open net in
example : SplitHostPort "[foo]:[bar]baz"
    = .error (addrErr "[foo]:[bar]baz" "unexpected '[' in address") := by
  decide
open net in
example : SplitHostPort "fe80::1%lo0:80"
    = .error (addrErr "fe80::1%lo0:80" "too many colons in address") := by
  decide
open net in
example : (IP.bytes [0x20, 0x01, 0x0d, 0xb8, 0, 0, 0, 0, 0, 1, 0, 0, 0, 0, 0, 0]).String
    = "2001:db8:0:0:1::" := by
  decide
open net urllib in
example : IsNonPublicIP (IP.bytes [10, 0, 0, 5]) = true := by decide
open net urllib in
example : IsNonPublicIP (IP.bytes [93, 184, 216, 34]) = false := by decide
open net urllib in
example : IsNonPublicIP (IP.bytes [0, 0, 0, 0, 0, 0, 0, 0, 0, 0, 255, 255, 127, 0, 0, 1]) = true := by
  decide
open net urllib in
example : IsNonPublicIP (IP.bytes [0x20, 0x01, 0x0d, 0xb8, 0, 0, 0, 0, 0, 0, 0, 0, 0, 0, 0, 1]) = false := by
  decide
open net urllib in
example : IsNonPublicIP (IP.bytes [0xfe, 0xbf, 0, 0, 0, 0, 0, 0, 0, 0, 0, 0, 0, 0, 0, 1]) = true := by
  decide
open net urllib in
example : IsNonPublicIP (IP.bytes [0xfe, 0xc0, 0, 0, 0, 0, 0, 0, 0, 0, 0, 0, 0, 0, 0, 1]) = false := by
  decide
open net urllib in
example : IsNonPublicIP IP.nil = true := by decide
open client Scenario in
example : (NewClientWithOptions.DialContext env dialer "tcp" "example.org:443").trace
    = [.lookup "example.org", .classify privateIP, .classify publicIP,
       .dial dialer "tcp" "93.184.216.34:443"] := by
  decide
open client Scenario in
example : (NewClientWithOptions.DialContext env dialer "tcp" "example.org:443").conn = some 1 := by
  decide
open client Scenario in
example : (NewClientWithOptions.DialContext env dialer "tcp" "[fe80::1%\"]:80").err
    = some (.wrap ("client: connection to private network is blocked: host \"fe80::1%\\\"\" "
        ++ "resolves to a non-public IP address") ErrPrivateNetwork) := by
  decide
open client Scenario in
example : (NewClientWithOptions.DialContext env dialer "tcp" "empty.example:80").err
    = some (blockedError env "empty.example") := by
  decide
open client Scenario in
example : (NewClientWithOptions.DialContext env dialer "tcp" "intranet.example:80").trace
    = [.lookup "intranet.example", .classify privateIP] := by
  decide
open api Scenario in
example : (updateUser deps store renameOther).response = .Forbidden := by
  decide
open api Scenario in
example : (updateUser deps store renameSelf).response = .Created ⟨2, ⟨"bob", false⟩⟩ := by
  decide

/-! ## Theorems -/

/-! ### `pushover.NewClient` (C10) -/

/-- C10. For every integer priority `p`, `pushover.NewClient` stores the
priority `max (-2) (min 2 p)`, which is `p` itself whenever `-2 ≤ p ≤ 2`; the
prefix is the default Pushover URL when `urlPrefix` is empty and `urlPrefix`
otherwise (so it equals the default exactly when `urlPrefix` is empty or is the
default URL itself); user, token and device are stored unchanged. -/
theorem pushover_NewClient_clamps (user token : String) (p : Int) (device urlPrefix : String) :
    (pushover.NewClient user token p device urlPrefix).priority = max (-2) (min 2 p)
    ∧ (-2 ≤ p ∧ p ≤ 2 → (pushover.NewClient user token p device urlPrefix).priority = p)
    ∧ -2 ≤ (pushover.NewClient user token p device urlPrefix).priority
    ∧ (pushover.NewClient user token p device urlPrefix).priority ≤ 2
    ∧ (pushover.NewClient user token p device urlPrefix).urlPrefix
        = (if urlPrefix = "" then pushover.defaultPushoverURL else urlPrefix)
    ∧ ((pushover.NewClient user token p device urlPrefix).urlPrefix = pushover.defaultPushoverURL
        ↔ urlPrefix = "" ∨ urlPrefix = pushover.defaultPushoverURL)
    ∧ (pushover.NewClient user token p device urlPrefix).user = user
    ∧ (pushover.NewClient user token p device urlPrefix).token = token
    ∧ (pushover.NewClient user token p device urlPrefix).device = device := by
  refine ⟨?_, ?_, ?_, ?_, rfl, ?_, rfl, rfl, rfl⟩
  · simp only [pushover.NewClient]
    split_ifs <;> omega
  · intro h
    simp only [pushover.NewClient]
    split_ifs <;> omega
  · simp only [pushover.NewClient]
    split_ifs <;> omega
  · simp only [pushover.NewClient]
    split_ifs <;> omega
  · simp only [pushover.NewClient]
    by_cases h : urlPrefix = ""
    · simp [h]
    · simp [h]

/-! ### The client factory (C4) -/

/-- C4. `NewClientWithOptions` returns a client whose `Timeout` is
`opts.Timeout`; its `Transport` is nil exactly when `opts.BlockPrivateNetworks` is
false; otherwise the `Transport` has a non-nil `DialContext`, which is the safe
dial hook over a dialer whose `Timeout` is `opts.Timeout`. -/
theorem NewClientWithOptions_shape (env : client.Env) (opts : client.Options) :
    (client.NewClientWithOptions env opts).Timeout = opts.Timeout
    ∧ ((client.NewClientWithOptions env opts).Transport = none
        ↔ opts.BlockPrivateNetworks = false)
    ∧ (opts.BlockPrivateNetworks = true →
        ∃ transport dialer,
          (client.NewClientWithOptions env opts).Transport = some transport
          ∧ transport.DialContext = some (client.NewClientWithOptions.DialContext env dialer)
          ∧ dialer.Timeout = opts.Timeout) := by
  cases hb : opts.BlockPrivateNetworks
  · simp [client.NewClientWithOptions, hb]
  · refine ⟨by simp [client.NewClientWithOptions, hb], by simp [client.NewClientWithOptions, hb], ?_⟩
    intro _
    exact ⟨_, ⟨opts.Timeout⟩, by simp [client.NewClientWithOptions, hb], rfl, rfl⟩

/-! ### The integrations and the deployment flag (C8) -/

/-- The clients of `pushover.makeRequest` and `rssbridge.DetectBridges` follow the
deployment flag: `BlockPrivateNetworks = !IntegrationAllowPrivateNetworks`. -/
theorem pushover_rssbridge_follow_flag (allow : Bool) :
    (pushover.makeRequest.options allow).BlockPrivateNetworks = !allow
    ∧ (rssbridge.DetectBridges.options allow).BlockPrivateNetworks = !allow :=
  ⟨rfl, rfl⟩

/-- C8 fails for `archiveorg.SendURL`: with the deployment flag
`IntegrationAllowPrivateNetworks = false` the options it passes to the factory
have `BlockPrivateNetworks = false`, not `true`, and its client has no custom
transport, so no dial hook guards its connections; `pushover.makeRequest` and
`rssbridge.DetectBridges` pass `true` on the same flag. -/
theorem archiveorg_SendURL_ignores_flag (env : client.Env) :
    (archiveorg.SendURL.options false).BlockPrivateNetworks = false
    ∧ (archiveorg.SendURL.options false).BlockPrivateNetworks ≠ !false
    ∧ (∀ allow, (archiveorg.SendURL.options allow).BlockPrivateNetworks = false)
    ∧ (archiveorg.SendURL.httpClient env false).Transport.isNone = true
    ∧ (pushover.makeRequest.options false).BlockPrivateNetworks = true
    ∧ (rssbridge.DetectBridges.options false).BlockPrivateNetworks = true := by
  refine ⟨rfl, by decide, fun _ => rfl, ?_, rfl, rfl⟩
  simp [archiveorg.SendURL.httpClient, archiveorg.SendURL.options, client.NewClientWithOptions]

/-! ### The safe dial hook: auxiliary facts -/

namespace client

open errors net

/-- The candidate loop either stops at the first address classified public,
having classified exactly the addresses up to it, or classifies every address
and leaves `safeIP` nil. -/
theorem selectSafeIP_cases (cls : IP → Bool) (ips : List IP) :
    (∃ pre ip post, ips = pre ++ ip :: post ∧ (∀ x ∈ pre, cls x = true) ∧ cls ip = false
        ∧ selectSafeIP cls ips = (ip, (pre ++ [ip]).map Event.classify))
    ∨ ((∀ x ∈ ips, cls x = true) ∧ selectSafeIP cls ips = (IP.nil, ips.map Event.classify)) := by
  induction ips with
  | nil => right; simp [selectSafeIP]
  | cons a rest ih =>
    cases ha : cls a
    · left
      exact ⟨[], a, rest, rfl, by simp, ha, by simp [selectSafeIP, ha]⟩
    · rcases ih with ⟨pre, ip, post, hsplit, hpre, hip, hsel⟩ | ⟨hall, hsel⟩
      · left
        refine ⟨a :: pre, ip, post, by simp [hsplit], ?_, hip, ?_⟩
        · intro x hx
          rcases List.mem_cons.mp hx with rfl | hx
          · exact ha
          · exact hpre x hx
        · simp [selectSafeIP, ha, hsel]
      · right
        refine ⟨?_, by simp [selectSafeIP, ha, hsel]⟩
        intro x hx
        rcases List.mem_cons.mp hx with rfl | hx
        · exact ha
        · exact hall x hx

/-- The hook on an address that does not split. -/
theorem DialContext_of_split_error (env : Env) (dialer : Dialer) (network addr : String)
    (err : error) (hs : SplitHostPort addr = .error err) :
    NewClientWithOptions.DialContext env dialer network addr
      = ⟨none, some (.wrap ("client: unable to parse address "
          ++ strconv.Quote env.isPrintTable addr ++ ": " ++ err.Error) err), []⟩ := by
  simp [NewClientWithOptions.DialContext, hs]

/-- The hook on a host that does not resolve. -/
theorem DialContext_of_lookup_error (env : Env) (dialer : Dialer) (network addr host port : String)
    (err : error) (hs : SplitHostPort addr = .ok (host, port))
    (hl : env.LookupIP host = .error err) :
    NewClientWithOptions.DialContext env dialer network addr
      = ⟨none, some (.wrap ("client: unable to resolve host "
          ++ strconv.Quote env.isPrintTable host ++ ": " ++ err.Error) err),
          [Event.lookup host]⟩ := by
  simp [NewClientWithOptions.DialContext, hs, hl]

/-- The hook when the candidate loop leaves `safeIP` nil. -/
theorem DialContext_of_nil (env : Env) (dialer : Dialer) (network addr host port : String)
    (ips : List IP) (hs : SplitHostPort addr = .ok (host, port))
    (hl : env.LookupIP host = .ok ips) (hsel : (selectSafeIP env.IsNonPublicIP ips).1 = IP.nil) :
    NewClientWithOptions.DialContext env dialer network addr
      = ⟨none, some (blockedError env host),
          Event.lookup host :: (selectSafeIP env.IsNonPublicIP ips).2⟩ := by
  simp [NewClientWithOptions.DialContext, hs, hl, hsel, blockedError]

/-- The hook when the candidate loop ends with a non-nil `safeIP`. -/
theorem DialContext_of_safeIP (env : Env) (dialer : Dialer) (network addr host port : String)
    (ips : List IP) (hs : SplitHostPort addr = .ok (host, port))
    (hl : env.LookupIP host = .ok ips) (hsel : (selectSafeIP env.IsNonPublicIP ips).1 ≠ IP.nil) :
    NewClientWithOptions.DialContext env dialer network addr
      = ⟨(env.DialContext dialer network
            (JoinHostPort (selectSafeIP env.IsNonPublicIP ips).1.String port)).1,
          (env.DialContext dialer network
            (JoinHostPort (selectSafeIP env.IsNonPublicIP ips).1.String port)).2,
          Event.lookup host :: (selectSafeIP env.IsNonPublicIP ips).2
            ++ [Event.dial dialer network
                (JoinHostPort (selectSafeIP env.IsNonPublicIP ips).1.String port)]⟩ := by
  simp [NewClientWithOptions.DialContext, hs, hl, hsel]

/-- Classifier calls are no dialer calls. -/
theorem countP_isDial_map_classify (l : List IP) :
    (l.map Event.classify).countP Event.isDial = 0 := by
  induction l with
  | nil => rfl
  | cons a rest ih => simp [List.countP_cons, Event.isDial, ih]

/-- The calls made by the candidate loop are classifier calls on a leading part
of the candidate list. -/
theorem selectSafeIP_trace (cls : IP → Bool) (ips : List IP) :
    ∃ n, (selectSafeIP cls ips).2 = (ips.take n).map Event.classify := by
  rcases selectSafeIP_cases cls ips with ⟨pre, ip, post, hsplit, _, _, hsel⟩ | ⟨_, hsel⟩
  · refine ⟨pre.length + 1, ?_⟩
    rw [hsel, hsplit]
    simp [List.take_append_eq_append_take]
  · exact ⟨ips.length, by rw [hsel]; simp⟩

/-- A non-nil `safeIP` is a member of the candidate list that the classifier
reports public. -/
theorem selectSafeIP_mem (cls : IP → Bool) (ips : List IP)
    (h : (selectSafeIP cls ips).1 ≠ IP.nil) :
    (selectSafeIP cls ips).1 ∈ ips ∧ cls (selectSafeIP cls ips).1 = false := by
  rcases selectSafeIP_cases cls ips with ⟨pre, ip, post, hsplit, _, hip, hsel⟩ | ⟨_, hsel⟩
  · rw [hsel]
    exact ⟨by simp [hsplit], hip⟩
  · rw [hsel] at h
    exact absurd rfl h

end client

namespace client

open errors net

/-- Classifier calls are filtered out when keeping the dialer calls. -/
theorem filter_isDial_map_classify (l : List IP) :
    (l.map Event.classify).filter Event.isDial = [] := by
  induction l with
  | nil => rfl
  | cons a rest ih => simp [List.filter_cons, Event.isDial, ih]

/-- The dialer calls of the candidate loop: none. -/
theorem filter_isDial_selectSafeIP (cls : IP → Bool) (ips : List IP) :
    (selectSafeIP cls ips).2.filter Event.isDial = [] := by
  obtain ⟨n, hn⟩ := selectSafeIP_trace cls ips
  rw [hn]
  exact filter_isDial_map_classify _

/-- The dialer calls of one run of the hook: none, or the single call on the
address joined from the text of the selected candidate and the port of `addr`. -/
theorem DialContext_dial_calls (env : Env) (dialer : Dialer) (network addr : String) :
    (NewClientWithOptions.DialContext env dialer network addr).trace.filter Event.isDial = []
    ∨ ∃ host port ips, SplitHostPort addr = .ok (host, port) ∧ env.LookupIP host = .ok ips
        ∧ (selectSafeIP env.IsNonPublicIP ips).1 ≠ IP.nil
        ∧ (NewClientWithOptions.DialContext env dialer network addr).trace.filter Event.isDial
            = [Event.dial dialer network
                (JoinHostPort (selectSafeIP env.IsNonPublicIP ips).1.String port)] := by
  cases hs : SplitHostPort addr with
  | error err => left; rw [DialContext_of_split_error env dialer network addr err hs]; rfl
  | ok hp =>
    obtain ⟨host, port⟩ := hp
    cases hl : env.LookupIP host with
    | error err =>
      left; rw [DialContext_of_lookup_error env dialer network addr host port err hs hl]; rfl
    | ok ips =>
      by_cases hsel : (selectSafeIP env.IsNonPublicIP ips).1 = IP.nil
      · left
        rw [DialContext_of_nil env dialer network addr host port ips hs hl hsel]
        simp [List.filter_cons, Event.isDial, filter_isDial_selectSafeIP]
      · right
        refine ⟨host, port, ips, rfl, hl, hsel, ?_⟩
        rw [DialContext_of_safeIP env dialer network addr host port ips hs hl hsel]
        simp [List.filter_cons, Event.isDial, filter_isDial_selectSafeIP]

/-- The client built when `BlockPrivateNetworks` is set. -/
theorem NewClientWithOptions_of_blocking (env : Env) (opts : Options)
    (hb : opts.BlockPrivateNetworks = true) :
    NewClientWithOptions env opts
      = Client.mk opts.Timeout
          (some (Transport.mk (some (NewClientWithOptions.DialContext env (Dialer.mk opts.Timeout))))) := by
  simp [NewClientWithOptions, hb]

end client

/-! ### The dial hook only ever dials a checked IP literal (C1) -/

namespace net

/-- `IndexByteString` finds a byte exactly when the string holds it. -/
theorem IndexByteString_isSome (l : List Char) (c : Char) :
    (IndexByteString l c).isSome = true ↔ c ∈ l := by
  induction l with
  | nil => simp [IndexByteString]
  | cons x xs ih =>
    simp only [IndexByteString]
    split_ifs with h
    · simp [h]
    · have hm : (Option.map (fun x => x + 1) (IndexByteString xs c)).isSome
          = (IndexByteString xs c).isSome := by
        cases IndexByteString xs c <;> rfl
      rw [hm, ih, List.mem_cons]
      constructor
      · exact Or.inr
      · rintro (h1 | h1)
        · exact absurd h1.symm h
        · exact h1

/-- For a fixed port, `JoinHostPort` gives different addresses for different hosts. -/
theorem JoinHostPort_left_inj (h1 h2 port : String)
    (e : JoinHostPort h1 port = JoinHostPort h2 port) : h1 = h2 := by
  unfold JoinHostPort at e
  have key : ∀ a b : String, (IndexByteString a.toList ':').isSome = true →
      "[" ++ a ++ "]:" ++ port = b ++ ":" ++ port →
      (IndexByteString b.toList ':').isSome = true := by
    intro a b ha hab
    have hd := congrArg String.data hab
    simp only [String.data_append] at hd
    have hd2 : ("[".data ++ a.data ++ "]".data) ++ (":".data ++ port.data)
        = b.data ++ (":".data ++ port.data) := by
      simpa [List.append_assoc] using hd
    have hb := List.append_cancel_right hd2
    rw [IndexByteString_isSome] at ha ⊢
    show ':' ∈ b.data
    rw [← hb]
    simp only [List.mem_append]
    exact Or.inl (Or.inr ha)
  split_ifs at e with c1 c2 c2
  · have hd := congrArg String.data e
    simp only [String.data_append, List.append_assoc] at hd
    have h3 := List.append_cancel_left hd
    have h4 : h1.data ++ ("]:".data ++ port.data) = h2.data ++ ("]:".data ++ port.data) := h3
    exact String.ext (List.append_cancel_right h4)
  · exact absurd (key h1 h2 c1 e) c2
  · exact absurd (key h2 h1 c2 e.symm) c1
  · have hd := congrArg String.data e
    simp only [String.data_append, List.append_assoc] at hd
    exact String.ext (List.append_cancel_right hd)

end net

open client errors net Scenario in
/-- C1 as stated fails in its last clause: for the address `93.184.216.34:443`,
whose host is the IP literal `93.184.216.34`, the resolver returns that address,
the classifier reports it public, and the one call of the dialer is on
`93.184.216.34:443`, which is `JoinHostPort(host, port)` for the original host
string taken from `addr`. -/
theorem DialContext_dials_literal_host_counterexample :
    SplitHostPort "93.184.216.34:443" = .ok ("93.184.216.34", "443")
    ∧ Scenario.env.LookupIP "93.184.216.34" = .ok [publicLiteralIP]
    ∧ Scenario.env.IsNonPublicIP publicLiteralIP = false
    ∧ (NewClientWithOptions.DialContext Scenario.env dialer "tcp" "93.184.216.34:443").trace
        = [.lookup "93.184.216.34", .classify publicLiteralIP,
           .dial dialer "tcp" "93.184.216.34:443"]
    ∧ Event.dial dialer "tcp" (JoinHostPort "93.184.216.34" "443")
        ∈ (NewClientWithOptions.DialContext Scenario.env dialer "tcp" "93.184.216.34:443").trace
    ∧ SplitHostPort (JoinHostPort "93.184.216.34" "443") = .ok ("93.184.216.34", "443") := by
  decide

open client errors net in
/-- C1, amended. For every client built by `NewClientWithOptions` with
`BlockPrivateNetworks = true`, its transport carries a dial hook such that, for
every network, address, resolver outcome and classifier: the hook calls the
underlying dialer at most once; every dialer call is on the original network and
on the address `JoinHostPort(ip.String(), port)`, where `port` is the port of
`addr` and `ip` is an element of the list the resolver returned in this call
which the classifier reports public; the dialer is handed the original host
string taken from `addr` (the address `JoinHostPort(host, port)`) only when that
string is itself `ip.String()`, the text of the chosen address. -/
theorem DialContext_dials_only_checked_ip (env : Env) (opts : Options)
    (hb : opts.BlockPrivateNetworks = true) :
    ∃ transport hook,
      (NewClientWithOptions env opts).Transport = some transport
      ∧ transport.DialContext = some hook
      ∧ ∀ network addr : String,
          (hook network addr).trace.countP Event.isDial ≤ 1
          ∧ (∀ d n a, Event.dial d n a ∈ (hook network addr).trace →
              ∃ host port ips ip, SplitHostPort addr = .ok (host, port)
                ∧ env.LookupIP host = .ok ips ∧ ip ∈ ips ∧ env.IsNonPublicIP ip = false
                ∧ a = JoinHostPort ip.String port ∧ n = network
                ∧ (a = JoinHostPort host port → host = ip.String)) := by
  refine ⟨_, _, congrArg Client.Transport (NewClientWithOptions_of_blocking env opts hb), rfl, ?_⟩
  generalize Dialer.mk opts.Timeout = dialer
  intro network addr
  refine ⟨?_, ?_⟩
  · rw [List.countP_eq_length_filter]
    rcases DialContext_dial_calls env dialer network addr with h | ⟨_, _, _, _, _, _, h⟩
    · simp [h]
    · simp [h]
  · intro d n a hmem
    have hmem2 : Event.dial d n a
        ∈ (NewClientWithOptions.DialContext env dialer network addr).trace.filter Event.isDial :=
      List.mem_filter.mpr ⟨hmem, rfl⟩
    rcases DialContext_dial_calls env dialer network addr with h | ⟨host, port, ips, hs, hl, hne, h⟩
    · rw [h] at hmem2
      exact absurd hmem2 (List.not_mem_nil _)
    · rw [h] at hmem2
      have heq := List.mem_singleton.mp hmem2
      injection heq with _ hn ha
      obtain ⟨hin, hpub⟩ := selectSafeIP_mem env.IsNonPublicIP ips hne
      refine ⟨host, port, ips, _, hs, hl, hin, hpub, ha, hn, ?_⟩
      intro hhost
      exact JoinHostPort_left_inj _ _ port (hhost.symm.trans ha)

open client errors net Scenario in
/-- C1, amended, at the options of the tests (`Timeout: 5 * time.Second`,
`BlockPrivateNetworks: true`) in the test environment. -/
theorem DialContext_dials_only_checked_ip_witness :
    (⟨5 * time.Second, true⟩ : Options).BlockPrivateNetworks = true
    ∧ ∃ transport hook,
      (NewClientWithOptions Scenario.env ⟨5 * time.Second, true⟩).Transport = some transport
      ∧ transport.DialContext = some hook
      ∧ ∀ network addr : String,
          (hook network addr).trace.countP Event.isDial ≤ 1
          ∧ (∀ d n a, Event.dial d n a ∈ (hook network addr).trace →
              ∃ host port ips ip, SplitHostPort addr = .ok (host, port)
                ∧ Scenario.env.LookupIP host = .ok ips ∧ ip ∈ ips
                ∧ Scenario.env.IsNonPublicIP ip = false
                ∧ a = JoinHostPort ip.String port ∧ n = network
                ∧ (a = JoinHostPort host port → host = ip.String)) :=
  ⟨rfl, DialContext_dials_only_checked_ip Scenario.env ⟨5 * time.Second, true⟩ rfl⟩

open client errors net in
/-- The address handed to the dialer does not depend on the host string: two
addresses with the same port whose hosts resolve to the same list lead to the
same dialer calls. -/
theorem DialContext_dial_independent_of_host (env : Env) (dialer : Dialer)
    (network addr addr2 host host2 port : String) (ips : List IP)
    (hs : SplitHostPort addr = .ok (host, port)) (hs2 : SplitHostPort addr2 = .ok (host2, port))
    (hl : env.LookupIP host = .ok ips) (hl2 : env.LookupIP host2 = .ok ips) :
    (NewClientWithOptions.DialContext env dialer network addr2).trace.filter Event.isDial
      = (NewClientWithOptions.DialContext env dialer network addr).trace.filter Event.isDial := by
  by_cases hsel : (selectSafeIP env.IsNonPublicIP ips).1 = IP.nil
  · rw [DialContext_of_nil env dialer network addr host port ips hs hl hsel,
      DialContext_of_nil env dialer network addr2 host2 port ips hs2 hl2 hsel]
    simp [List.filter_cons, Event.isDial]
  · rw [DialContext_of_safeIP env dialer network addr host port ips hs hl hsel,
      DialContext_of_safeIP env dialer network addr2 host2 port ips hs2 hl2 hsel]
    simp [List.filter_cons, Event.isDial]

/-! ### First public candidate wins (C2) -/

open client errors net in
/-- C2. For every address that splits into `(host, port)` and every resolved
list `ips` of which the classifier reports at least one address public (an
address is a non-nil `net.IP`: the classifier reports no nil entry of `ips`
public), with `i` the smallest index such that `IsNonPublicIP(ips[i])` is false:
the hook looks up `host`, classifies `ips[0], ..., ips[i]` in this order and
nothing after index `i`, then calls the dialer exactly once, on the original
network and on `JoinHostPort(ips[i].String(), port)`, and returns what that call
returns. No reordering or address-family preference is applied. -/
theorem DialContext_first_public_wins (env : Env) (dialer : Dialer)
    (network addr host port : String) (ips : List IP)
    (hs : SplitHostPort addr = .ok (host, port)) (hl : env.LookupIP host = .ok ips)
    (hpub : ∃ ip ∈ ips, env.IsNonPublicIP ip = false)
    (haddr : ∀ ip ∈ ips, env.IsNonPublicIP ip = false → ip ≠ IP.nil) :
    ∃ i ip, ips[i]? = some ip ∧ env.IsNonPublicIP ip = false
      ∧ (∀ j x, j < i → ips[j]? = some x → env.IsNonPublicIP x = true)
      ∧ (NewClientWithOptions.DialContext env dialer network addr).trace
          = Event.lookup host :: (ips.take (i + 1)).map Event.classify
              ++ [Event.dial dialer network (JoinHostPort ip.String port)]
      ∧ ((NewClientWithOptions.DialContext env dialer network addr).conn,
          (NewClientWithOptions.DialContext env dialer network addr).err)
          = env.DialContext dialer network (JoinHostPort ip.String port) := by
  rcases selectSafeIP_cases env.IsNonPublicIP ips with
    ⟨pre, ip, post, hsplit, hpre, hip, hsel⟩ | ⟨hall, _⟩
  · have hne : (selectSafeIP env.IsNonPublicIP ips).1 ≠ IP.nil := by
      rw [hsel]
      exact haddr ip (by simp [hsplit]) hip
    refine ⟨pre.length, ip, ?_, hip, ?_, ?_, ?_⟩
    · rw [hsplit, List.getElem?_append_right (Nat.le_refl _)]
      simp
    · intro j x hj hx
      rw [hsplit, List.getElem?_append_left hj] at hx
      exact hpre x (List.getElem?_mem hx)
    · rw [DialContext_of_safeIP env dialer network addr host port ips hs hl hne, hsel, hsplit]
      simp [List.take_append_eq_append_take]
    · rw [DialContext_of_safeIP env dialer network addr host port ips hs hl hne, hsel]
  · obtain ⟨ip, hmem, hfalse⟩ := hpub
    rw [hall ip hmem] at hfalse
    exact absurd hfalse (by decide)

open client errors net Scenario in
/-- C2 on the example of the spec: `example.org` resolves to
`[10.0.0.5, 93.184.216.34]`; the hook dials only `93.184.216.34:443`. -/
theorem DialContext_first_public_wins_witness :
    (SplitHostPort "example.org:443" = .ok ("example.org", "443")
      ∧ Scenario.env.LookupIP "example.org" = .ok [privateIP, publicIP]
      ∧ (∃ ip ∈ [privateIP, publicIP], Scenario.env.IsNonPublicIP ip = false)
      ∧ (∀ ip ∈ [privateIP, publicIP], Scenario.env.IsNonPublicIP ip = false → ip ≠ IP.nil))
    ∧ ∃ i ip, [privateIP, publicIP][i]? = some ip ∧ Scenario.env.IsNonPublicIP ip = false
      ∧ (∀ j x, j < i → [privateIP, publicIP][j]? = some x → Scenario.env.IsNonPublicIP x = true)
      ∧ (NewClientWithOptions.DialContext Scenario.env dialer "tcp" "example.org:443").trace
          = Event.lookup "example.org" :: ([privateIP, publicIP].take (i + 1)).map Event.classify
              ++ [Event.dial dialer "tcp" (JoinHostPort ip.String "443")]
      ∧ ((NewClientWithOptions.DialContext Scenario.env dialer "tcp" "example.org:443").conn,
          (NewClientWithOptions.DialContext Scenario.env dialer "tcp" "example.org:443").err)
          = Scenario.env.DialContext dialer "tcp" (JoinHostPort ip.String "443") :=
  ⟨⟨by decide, by decide, by decide, by decide⟩,
    DialContext_first_public_wins Scenario.env dialer "tcp" "example.org:443" "example.org" "443"
      [privateIP, publicIP] (by decide) (by decide) (by decide) (by decide)⟩

/-- The run of the hook on the example of the spec, evaluated: the private
address is classified and skipped, the public one is classified and dialed, and
the connection of the dialer is returned. -/
theorem DialContext_example_run :
    (client.NewClientWithOptions.DialContext Scenario.env Scenario.dialer "tcp"
        "example.org:443").trace
      = [.lookup "example.org", .classify Scenario.privateIP, .classify Scenario.publicIP,
         .dial Scenario.dialer "tcp" "93.184.216.34:443"]
    ∧ (client.NewClientWithOptions.DialContext Scenario.env Scenario.dialer "tcp"
        "example.org:443").conn = some 1
    ∧ (client.NewClientWithOptions.DialContext Scenario.env Scenario.dialer "tcp"
        "example.org:443").err = none := by
  decide

/-! ### Pass-through of the validated dial (C6) -/

open client errors net in
/-- C6. Whenever the candidate loop of the hook finds a public candidate `ip`
(it ends with `safeIP = ip`, not nil), the pair `(conn, err)` the hook returns
is exactly the pair returned by the underlying dialer on
`JoinHostPort(ip.String(), port)`: in particular a connect error is returned as
it is, neither wrapped nor replaced by `ErrPrivateNetwork`. That dialer call is
the only one and the last call the hook makes, so no further candidate is
classified or dialed after a failed connect. -/
theorem DialContext_passes_dial_through (env : Env) (dialer : Dialer)
    (network addr host port : String) (ips : List IP) (ip : IP)
    (hs : SplitHostPort addr = .ok (host, port)) (hl : env.LookupIP host = .ok ips)
    (hsel : (selectSafeIP env.IsNonPublicIP ips).1 = ip) (hne : ip ≠ IP.nil) :
    ((NewClientWithOptions.DialContext env dialer network addr).conn,
        (NewClientWithOptions.DialContext env dialer network addr).err)
      = env.DialContext dialer network (JoinHostPort ip.String port)
    ∧ (∀ e, (env.DialContext dialer network (JoinHostPort ip.String port)).2 = some e →
        (NewClientWithOptions.DialContext env dialer network addr).conn
            = (env.DialContext dialer network (JoinHostPort ip.String port)).1
          ∧ (NewClientWithOptions.DialContext env dialer network addr).err = some e)
    ∧ (NewClientWithOptions.DialContext env dialer network addr).trace.countP Event.isDial = 1
    ∧ (NewClientWithOptions.DialContext env dialer network addr).trace.getLast?
        = some (Event.dial dialer network (JoinHostPort ip.String port))
    ∧ ip ∈ ips ∧ env.IsNonPublicIP ip = false := by
  have hne2 : (selectSafeIP env.IsNonPublicIP ips).1 ≠ IP.nil := by rw [hsel]; exact hne
  have hmem := selectSafeIP_mem env.IsNonPublicIP ips hne2
  rw [hsel] at hmem
  rw [DialContext_of_safeIP env dialer network addr host port ips hs hl hne2, hsel]
  refine ⟨rfl, ?_, ?_, ?_, hmem.1, hmem.2⟩
  · intro e he
    exact ⟨rfl, he⟩
  · rw [List.countP_eq_length_filter]
    simp [List.filter_cons, Event.isDial, filter_isDial_selectSafeIP]
  · rw [List.getLast?_eq_some_iff]
    exact ⟨Event.lookup host :: (selectSafeIP env.IsNonPublicIP ips).2, by simp⟩

open client errors net Scenario in
/-- C6 on a refused connection: `example.org:80` selects `93.184.216.34`, the
dialer refuses port 80, and the hook returns that very error. -/
theorem DialContext_passes_dial_through_witness :
    (SplitHostPort "example.org:80" = .ok ("example.org", "80")
      ∧ Scenario.env.LookupIP "example.org" = .ok [privateIP, publicIP]
      ∧ (selectSafeIP Scenario.env.IsNonPublicIP [privateIP, publicIP]).1 = publicIP
      ∧ publicIP ≠ IP.nil)
    ∧ Scenario.env.DialContext dialer "tcp" (JoinHostPort publicIP.String "80")
        = (none, some refused)
    ∧ (NewClientWithOptions.DialContext Scenario.env dialer "tcp" "example.org:80").err
        = some refused
    ∧ (NewClientWithOptions.DialContext Scenario.env dialer "tcp" "example.org:80").trace.countP
        Event.isDial = 1 :=
  have h := DialContext_passes_dial_through Scenario.env dialer "tcp" "example.org:80"
    "example.org" "80" [privateIP, publicIP] publicIP (by decide) (by decide) (by decide)
    (by decide)
  ⟨⟨by decide, by decide, by decide, by decide⟩, by decide,
    (h.2.1 refused (by decide)).2, h.2.2.1⟩

/-! ### Fail closed (C3) -/

namespace strconv

/-- Runes that are all plain are copied unchanged. -/
theorem escapeRunes_of_plain (table : Nat → Bool) (cs : List Char)
    (h : ∀ c ∈ cs, IsPlain table c) : escapeRunes table cs = cs := by
  induction cs with
  | nil => rfl
  | cons c rest ih =>
    obtain ⟨h1, h2, h3⟩ := h c (List.mem_cons_self _ _)
    have hrest := ih (fun x hx => h x (List.mem_cons_of_mem _ hx))
    simp [escapeRunes, appendEscapedRune, h1, h2, h3, hrest]

/-- A string of plain runes is quoted by putting it between double quotes, so
it occurs in its quoted form. -/
theorem contains_Quote_of_plain (table : Nat → Bool) (s : String)
    (h : ∀ c ∈ s.toList, IsPlain table c) : strings.Contains (Quote table s) s := by
  unfold strings.Contains Quote
  rw [escapeRunes_of_plain table s.toList h]
  exact ⟨['"'], ['"'], by simp⟩

end strconv

namespace client

open errors net

/-- The message of the blocked error contains the quoted host. -/
theorem blockedError_contains_Quote (env : Env) (host : String) :
    strings.Contains (blockedError env host).Error (strconv.Quote env.isPrintTable host) := by
  unfold strings.Contains blockedError error.Error
  simp only [String.toList, String.data_append]
  exact ⟨_, _, rfl⟩

/-- The blocked error wraps `ErrPrivateNetwork`. -/
theorem blockedError_Is (env : Env) (host : String) :
    Is (blockedError env host) ErrPrivateNetwork = true := by
  simp [blockedError, Is, ErrPrivateNetwork]

end client

set_option maxRecDepth 100000 in
open client errors net Scenario in
/-- C3 as stated fails: the address `[fe80::1%"]:80` splits into the host
`fe80::1%"` (an IPv6 literal whose zone is a double quote), which resolves to
`[fe80::1]`, a link-local and thus non-public address; the hook returns an error
that wraps `ErrPrivateNetwork`, but its message, built with the `%q` verb, reads
`... host "fe80::1%\"" resolves ...` and does not contain the host string. -/
theorem DialContext_blocked_message_counterexample :
    SplitHostPort "[fe80::1%\"]:80" = .ok ("fe80::1%\"", "80")
    ∧ Scenario.env.LookupIP "fe80::1%\"" = .ok [linkLocalIP]
    ∧ (∀ ip ∈ [linkLocalIP], Scenario.env.IsNonPublicIP ip = true)
    ∧ ∃ e, (NewClientWithOptions.DialContext Scenario.env dialer "tcp" "[fe80::1%\"]:80").err
          = some e
        ∧ Is e ErrPrivateNetwork = true
        ∧ e.Error = "client: connection to private network is blocked: host \"fe80::1%\\\"\" "
            ++ "resolves to a non-public IP address"
        ∧ ¬ strings.Contains e.Error "fe80::1%\"" := by
  refine ⟨by decide, by decide, by decide, _, rfl, by decide, by decide, by decide⟩

open client errors net in
/-- C3, amended. For every address that splits into `(host, port)` and whose
host resolves to a list in which every address is classified non-public (the
empty list included), the hook returns no connection and an error `e` with
`errors.Is(e, ErrPrivateNetwork)`; the message of `e` contains the host as
quoted by `%q` (`strconv.Quote(host)`), hence the host string itself whenever
the host consists of printable runes other than the double quote and the
backslash; every candidate is classified and the dialer is not called. -/
theorem DialContext_fails_closed (env : Env) (dialer : Dialer)
    (network addr host port : String) (ips : List IP)
    (hs : SplitHostPort addr = .ok (host, port)) (hl : env.LookupIP host = .ok ips)
    (hall : ∀ ip ∈ ips, env.IsNonPublicIP ip = true) :
    ∃ e, (NewClientWithOptions.DialContext env dialer network addr).conn = none
      ∧ (NewClientWithOptions.DialContext env dialer network addr).err = some e
      ∧ Is e ErrPrivateNetwork = true
      ∧ strings.Contains e.Error (strconv.Quote env.isPrintTable host)
      ∧ ((∀ c ∈ host.toList, strconv.IsPlain env.isPrintTable c) → strings.Contains e.Error host)
      ∧ (NewClientWithOptions.DialContext env dialer network addr).trace
          = Event.lookup host :: ips.map Event.classify
      ∧ (NewClientWithOptions.DialContext env dialer network addr).trace.countP Event.isDial
          = 0 := by
  have hsel : selectSafeIP env.IsNonPublicIP ips = (IP.nil, ips.map Event.classify) := by
    rcases selectSafeIP_cases env.IsNonPublicIP ips with
      ⟨pre, ip, post, hsplit, _, hip, _⟩ | ⟨_, hsel⟩
    · rw [hall ip (by simp [hsplit])] at hip
      exact absurd hip (by decide)
    · exact hsel
  have hnil : (selectSafeIP env.IsNonPublicIP ips).1 = IP.nil := by rw [hsel]
  rw [DialContext_of_nil env dialer network addr host port ips hs hl hnil, hsel]
  refine ⟨blockedError env host, rfl, rfl, blockedError_Is env host,
    blockedError_contains_Quote env host, ?_, rfl, ?_⟩
  · intro hplain
    exact List.IsInfix.trans (strconv.contains_Quote_of_plain env.isPrintTable host hplain)
      (blockedError_contains_Quote env host)
  · simp [List.countP_cons, Event.isDial, countP_isDial_map_classify]

open client errors net Scenario in
/-- C3, amended, on the loopback test server: the host `127.0.0.1` resolves to
itself, is classified non-public, and the hook fails with `ErrPrivateNetwork`
without dialing. -/
theorem DialContext_fails_closed_witness :
    (SplitHostPort "127.0.0.1:8080" = .ok ("127.0.0.1", "8080")
      ∧ Scenario.env.LookupIP "127.0.0.1" = .ok [loopbackIP]
      ∧ (∀ ip ∈ [loopbackIP], Scenario.env.IsNonPublicIP ip = true))
    ∧ ∃ e, (NewClientWithOptions.DialContext Scenario.env dialer "tcp" "127.0.0.1:8080").conn
          = none
      ∧ (NewClientWithOptions.DialContext Scenario.env dialer "tcp" "127.0.0.1:8080").err = some e
      ∧ Is e ErrPrivateNetwork = true
      ∧ strings.Contains e.Error (strconv.Quote Scenario.env.isPrintTable "127.0.0.1")
      ∧ ((∀ c ∈ "127.0.0.1".toList, strconv.IsPlain Scenario.env.isPrintTable c) →
          strings.Contains e.Error "127.0.0.1")
      ∧ (NewClientWithOptions.DialContext Scenario.env dialer "tcp" "127.0.0.1:8080").trace
          = Event.lookup "127.0.0.1" :: [loopbackIP].map Event.classify
      ∧ (NewClientWithOptions.DialContext Scenario.env dialer "tcp" "127.0.0.1:8080").trace.countP
          Event.isDial = 0 :=
  ⟨⟨by decide, by decide, by decide⟩,
    DialContext_fails_closed Scenario.env dialer "tcp" "127.0.0.1:8080" "127.0.0.1" "8080"
      [loopbackIP] (by decide) (by decide) (by decide)⟩

/-! ### Pre-dial failures (C5) -/

namespace net

open errors

/-- Every error of `SplitHostPort` is a `*AddrError`. -/
theorem SplitHostPort_error (hostport : String) (err : error)
    (h : SplitHostPort hostport = .error err) : ∃ why, err = addrErr hostport why := by
  unfold SplitHostPort at h
  simp only at h
  split at h
  · injection h with h
    exact ⟨_, h.symm⟩
  · split at h
    · rename_i e heq
      injection h with h
      subst h
      split at heq
      · split at heq
        · injection heq with heq
          exact ⟨_, heq.symm⟩
        · split_ifs at heq <;> injection heq with heq <;> exact ⟨_, heq.symm⟩
      · split_ifs at heq
        injection heq with heq
        exact ⟨_, heq.symm⟩
    · split_ifs at h <;> injection h with h <;> exact ⟨_, h.symm⟩

end net

namespace client

open errors net

/-- A `*AddrError` is not `ErrPrivateNetwork` and wraps nothing. -/
theorem Is_addrErr (addr why : String) : Is (addrErr addr why) ErrPrivateNetwork = false := by
  simp [addrErr, Is, ErrPrivateNetwork]

/-- Wrapping with `%w` an error that is not `ErrPrivateNetwork` gives an error
that is not `ErrPrivateNetwork`, and that is the wrapped error. -/
theorem Is_wrap (text : String) (err : error) (h : Is err ErrPrivateNetwork = false) :
    Is (.wrap text err) ErrPrivateNetwork = false ∧ Is (.wrap text err) err = true := by
  constructor
  · have hne : error.wrap text err ≠ ErrPrivateNetwork := by simp [ErrPrivateNetwork]
    rw [Is, if_neg hne]
    exact h
  · rw [Is]
    split_ifs with h1
    · rfl
    · cases err <;> simp [Is]

end client

open client errors net in
/-- C5. A pre-dial failure is fatal and is not the blocked error. If
`net.SplitHostPort(addr)` fails with `err`, or if `addr` splits into
`(host, port)` and the resolver fails on `host` with an `err` that is not
`ErrPrivateNetwork` (`errors.Is(err, ErrPrivateNetwork)` is false; an error of
`net.SplitHostPort` never is), then the hook returns no connection and an error `e` that
wraps `err` (`errors.Unwrap(e) = err`, `errors.Is(e, err)`) with
`errors.Is(e, ErrPrivateNetwork)` false, and never calls the dialer; in the first
case it calls nothing at all (no resolver call), in the second only the
resolver. -/
theorem DialContext_pre_dial_failure (env : Env) (dialer : Dialer)
    (network addr host port : String) (err : error)
    (hfail : SplitHostPort addr = .error err
      ∨ (SplitHostPort addr = .ok (host, port) ∧ env.LookupIP host = .error err
          ∧ Is err ErrPrivateNetwork = false)) :
    ∃ e, (NewClientWithOptions.DialContext env dialer network addr).conn = none
      ∧ (NewClientWithOptions.DialContext env dialer network addr).err = some e
      ∧ Unwrap e = some err ∧ Is e err = true ∧ Is e ErrPrivateNetwork = false
      ∧ (NewClientWithOptions.DialContext env dialer network addr).trace.countP Event.isDial = 0
      ∧ (SplitHostPort addr = .error err →
          (NewClientWithOptions.DialContext env dialer network addr).trace = [])
      ∧ (SplitHostPort addr = .ok (host, port) →
          (NewClientWithOptions.DialContext env dialer network addr).trace
            = [Event.lookup host]) := by
  rcases hfail with hs | ⟨hs, hl, hnot⟩
  · obtain ⟨why, hwhy⟩ := SplitHostPort_error addr err hs
    have hnot : Is err ErrPrivateNetwork = false := by rw [hwhy]; exact Is_addrErr addr why
    rw [DialContext_of_split_error env dialer network addr err hs]
    refine ⟨_, rfl, rfl, rfl, (Is_wrap _ err hnot).2, (Is_wrap _ err hnot).1, rfl, fun _ => rfl, ?_⟩
    intro h
    rw [hs] at h
    exact absurd h (by simp)
  · rw [DialContext_of_lookup_error env dialer network addr host port err hs hl]
    refine ⟨_, rfl, rfl, rfl, (Is_wrap _ err hnot).2, (Is_wrap _ err hnot).1, rfl, ?_, fun _ => rfl⟩
    intro h
    rw [hs] at h
    exact absurd h (by simp)

open client errors net Scenario in
/-- C5 on a host that does not resolve: `nosuch.invalid:80` splits, the resolver
fails, and the hook returns an error wrapping the resolver error after calling
only the resolver. -/
theorem DialContext_pre_dial_failure_witness :
    (SplitHostPort "nosuch.invalid:80" = .ok ("nosuch.invalid", "80")
      ∧ Scenario.env.LookupIP "nosuch.invalid" = .error noSuchHost
      ∧ Is noSuchHost ErrPrivateNetwork = false)
    ∧ ∃ e, (NewClientWithOptions.DialContext Scenario.env dialer "tcp" "nosuch.invalid:80").conn
          = none
      ∧ (NewClientWithOptions.DialContext Scenario.env dialer "tcp" "nosuch.invalid:80").err
          = some e
      ∧ Unwrap e = some noSuchHost ∧ Is e noSuchHost = true ∧ Is e ErrPrivateNetwork = false
      ∧ (NewClientWithOptions.DialContext Scenario.env dialer "tcp"
          "nosuch.invalid:80").trace.countP Event.isDial = 0
      ∧ (SplitHostPort "nosuch.invalid:80" = .error noSuchHost →
          (NewClientWithOptions.DialContext Scenario.env dialer "tcp" "nosuch.invalid:80").trace
            = [])
      ∧ (SplitHostPort "nosuch.invalid:80" = .ok ("nosuch.invalid", "80") →
          (NewClientWithOptions.DialContext Scenario.env dialer "tcp" "nosuch.invalid:80").trace
            = [Event.lookup "nosuch.invalid"]) :=
  ⟨⟨by decide, by decide, by decide⟩,
    DialContext_pre_dial_failure Scenario.env dialer "tcp" "nosuch.invalid:80" "nosuch.invalid"
      "80" noSuchHost (Or.inr ⟨by decide, by decide, by decide⟩)⟩

/-- The hook on an address without a port, evaluated: the error wraps the
`*AddrError` of `net.SplitHostPort`, nothing is called. -/
theorem DialContext_malformed_run :
    (client.NewClientWithOptions.DialContext Scenario.env Scenario.dialer "tcp" "example.org").err
      = some (.wrap ("client: unable to parse address \"example.org\": "
          ++ "address example.org: missing port in address")
          (net.addrErr "example.org" "missing port in address"))
    ∧ (client.NewClientWithOptions.DialContext Scenario.env Scenario.dialer "tcp"
        "example.org").trace = [] := by
  decide

/-- The blocked error comes from a successful resolution only. If no resolver
error is `ErrPrivateNetwork`, and the hook returns an error `e` with
`errors.Is(e, ErrPrivateNetwork)` without having called the dialer, then `addr`
split into some `(host, port)`, `host` resolved to some list `ips`, the
candidate loop left `safeIP` nil, and `e` is the blocked error for `host`; the
classifier then reports every candidate non-public, provided it reports no nil
entry public. -/
theorem DialContext_blocked_only_after_resolution (env : client.Env) (dialer : client.Dialer)
    (network addr : String) (e : errors.error)
    (hres : ∀ host err, env.LookupIP host = .error err →
      errors.Is err client.ErrPrivateNetwork = false)
    (he : (client.NewClientWithOptions.DialContext env dialer network addr).err = some e)
    (hIs : errors.Is e client.ErrPrivateNetwork = true)
    (hnodial : (client.NewClientWithOptions.DialContext env dialer network addr).trace.countP
      client.Event.isDial = 0) :
    ∃ host port ips, net.SplitHostPort addr = .ok (host, port) ∧ env.LookupIP host = .ok ips
      ∧ (client.selectSafeIP env.IsNonPublicIP ips).1 = net.IP.nil
      ∧ e = client.blockedError env host
      ∧ ((∀ ip ∈ ips, env.IsNonPublicIP ip = false → ip ≠ net.IP.nil) →
          ∀ ip ∈ ips, env.IsNonPublicIP ip = true) := by
  cases hs : net.SplitHostPort addr with
  | error err =>
    obtain ⟨why, hwhy⟩ := net.SplitHostPort_error addr err hs
    rw [client.DialContext_of_split_error env dialer network addr err hs] at he
    injection he with he
    rw [← he, (client.Is_wrap _ err (by rw [hwhy]; exact client.Is_addrErr addr why)).1] at hIs
    exact absurd hIs (by decide)
  | ok hp =>
    obtain ⟨host, port⟩ := hp
    cases hl : env.LookupIP host with
    | error err =>
      rw [client.DialContext_of_lookup_error env dialer network addr host port err hs hl] at he
      injection he with he
      rw [← he, (client.Is_wrap _ err (hres host err hl)).1] at hIs
      exact absurd hIs (by decide)
    | ok ips =>
      by_cases hsel : (client.selectSafeIP env.IsNonPublicIP ips).1 = net.IP.nil
      · rw [client.DialContext_of_nil env dialer network addr host port ips hs hl hsel] at he
        injection he with he
        refine ⟨host, port, ips, rfl, hl, hsel, he.symm, ?_⟩
        intro hnil ip hip
        rcases client.selectSafeIP_cases env.IsNonPublicIP ips with
          ⟨pre, x, post, hsplit, _, hx, hselx⟩ | ⟨hall, _⟩
        · rw [hselx] at hsel
          exact absurd hsel (hnil x (by simp [hsplit]) hx)
        · exact hall ip hip
      · rw [client.DialContext_of_safeIP env dialer network addr host port ips hs hl hsel,
          List.countP_eq_length_filter] at hnodial
        simp [List.filter_cons, client.Event.isDial, client.filter_isDial_selectSafeIP] at hnodial

/-! ### The address classifier (C7) -/

namespace urllib

open net

/-- No bits to compare: every two byte strings match. -/
theorem matchBits_zero (xs ys : List Nat) : matchBits xs ys 0 = true := by
  cases xs <;> cases ys <;> simp [matchBits]

/-- The classifier on a 4-byte IPv4 address, by address block. -/
theorem IsNonPublicIP_v4 (a b c d : Nat) :
    IsNonPublicIP (.bytes [a, b, c, d]) = true
      ↔ a = 127 ∨ (a = 169 ∧ b = 254) ∨ a = 10 ∨ (a = 172 ∧ b / 16 = 1) ∨ (a = 192 ∧ b = 168)
          ∨ a / 16 = 14 ∨ (a = 0 ∧ b = 0 ∧ c = 0 ∧ d = 0) := by
  simp [IsNonPublicIP, IP.To4, IP.data, IP.len, nonPublicBlocks4, Block.contains, matchBits]

end urllib

open net urllib in
/-- C7. The classifier reports non-public every IPv4 address in `127.0.0.0/8`,
`10.0.0.0/8`, `172.16.0.0/12`, `192.168.0.0/16`, `169.254.0.0/16`, the multicast
range `224.0.0.0/4` and the unspecified address `0.0.0.0`, and reports public
every other IPv4 address `a.b.c.d`; the 16-byte form of an IPv4 address is
classified like its 4-byte form. On the IPv6 addresses `g:h:rest` (two leading
bytes `g`, `h`, then 14 bytes): the multicast range `ff00::/8`, `fc00::/7`,
`fe80::/10`, the unspecified address `::` and `::1` are non-public, and every
address whose first byte lies between `0x01` and `0xfb`, which includes the
global unicast space `2000::/3`, is public. -/
theorem IsNonPublicIP_ranges (a b c d g h : Nat) (rest : List Nat) (hrest : rest.length = 14) :
    (IsNonPublicIP (.bytes [a, b, c, d]) = true
      ↔ a = 127 ∨ a = 10 ∨ (a = 172 ∧ 16 ≤ b ∧ b ≤ 31) ∨ (a = 192 ∧ b = 168)
          ∨ (a = 169 ∧ b = 254) ∨ (224 ≤ a ∧ a ≤ 239) ∨ (a = 0 ∧ b = 0 ∧ c = 0 ∧ d = 0))
    ∧ IsNonPublicIP (.bytes [0, 0, 0, 0, 0, 0, 0, 0, 0, 0, 255, 255, a, b, c, d])
        = IsNonPublicIP (.bytes [a, b, c, d])
    ∧ (g = 0xff → IsNonPublicIP (.bytes (g :: h :: rest)) = true)
    ∧ (g = 0xfc ∨ g = 0xfd → IsNonPublicIP (.bytes (g :: h :: rest)) = true)
    ∧ (g = 0xfe ∧ 0x80 ≤ h ∧ h ≤ 0xbf → IsNonPublicIP (.bytes (g :: h :: rest)) = true)
    ∧ IsNonPublicIP (.bytes [0, 0, 0, 0, 0, 0, 0, 0, 0, 0, 0, 0, 0, 0, 0, 0]) = true
    ∧ IsNonPublicIP (.bytes [0, 0, 0, 0, 0, 0, 0, 0, 0, 0, 0, 0, 0, 0, 0, 1]) = true
    ∧ (1 ≤ g ∧ g ≤ 0xfb → IsNonPublicIP (.bytes (g :: h :: rest)) = false) := by
  have hto4 : g ≠ 0 → (IP.bytes (g :: h :: rest)).To4 = IP.nil := by
    intro hg
    simp [IP.To4, IP.data, hrest, List.replicate, hg]
  refine ⟨?_, ?_, ?_, ?_, ?_, by decide, by decide, ?_⟩
  · rw [IsNonPublicIP_v4]
    omega
  · simp [IsNonPublicIP, IP.To4, IP.data, IP.len, List.replicate]
  · intro hg
    subst hg
    simp [IsNonPublicIP, hto4, IP.len, IP.data, hrest, nonPublicBlocks6, Block.contains, matchBits,
      matchBits_zero]
  · intro hg
    have hg0 : g ≠ 0 := by omega
    have hg2 : g / 2 = 126 := by omega
    simp [IsNonPublicIP, hto4 hg0, IP.len, IP.data, hrest, nonPublicBlocks6, Block.contains,
      matchBits, hg2]
  · rintro ⟨hg, hh1, hh2⟩
    subst hg
    have hh : h / 64 = 2 := by omega
    simp [IsNonPublicIP, hto4, IP.len, IP.data, hrest, nonPublicBlocks6, Block.contains, matchBits,
      hh]
  · rintro ⟨hg1, hg2⟩
    have hg0 : g ≠ 0 := by omega
    have h1 : g ≠ 254 := by omega
    have h2 : g ≠ 255 := by omega
    have h3 : g / 2 ≠ 126 := by omega
    simp [IsNonPublicIP, hto4 hg0, IP.len, IP.data, hrest, nonPublicBlocks6, Block.contains,
      matchBits, hg0, h1, h2, h3]

open net urllib in
/-- C7 at `172.20.1.1` (inside `172.16.0.0/12`) and at the IPv6 address
`2001:db8::1`. -/
theorem IsNonPublicIP_ranges_witness :
    [0x0d, 0xb8, 0, 0, 0, 0, 0, 0, 0, 0, 0, 0, 0, 1].length = 14
    ∧ IsNonPublicIP (.bytes [172, 20, 1, 1]) = true
    ∧ IsNonPublicIP (.bytes [0x20, 0x01, 0x0d, 0xb8, 0, 0, 0, 0, 0, 0, 0, 0, 0, 0, 0, 1]) = false :=
  have h := IsNonPublicIP_ranges 172 20 1 1 0x20 0x01 [0x0d, 0xb8, 0, 0, 0, 0, 0, 0, 0, 0, 0, 0, 0, 1]
    rfl
  ⟨rfl, h.1.mpr (by omega), h.2.2.2.2.2.2.2 (by omega)⟩

/-! ### The privilege guard of `updateUser` (C9) -/

open api errors model Scenario in
/-- C9 as stated fails on two requests of the standard user 2 on the existing
user 1. A request that sets `IsAdmin` to true is answered `Forbidden`, not
`BadRequest`, because the ID check comes first; a request whose body does not
decode is answered `BadRequest`, not `Forbidden`, because the body is decoded
before the user is looked up. -/
theorem updateUser_guard_order_counterexample :
    Scenario.deps.UserByID Scenario.store 1 = .ok (some ⟨1, ⟨"admin", true⟩⟩)
    ∧ promoteOther.IsAdminUser = false ∧ promoteOther.RouteUserID = 1
    ∧ promoteOther.UserID = 2
    ∧ promoteOther.Body = .ok ⟨some true, ⟨none⟩⟩
    ∧ (updateUser Scenario.deps Scenario.store promoteOther).response = .Forbidden
    ∧ (updateUser Scenario.deps Scenario.store promoteOther).response
        ≠ .BadRequest "only administrators can change permissions of standard users"
    ∧ malformedOther.IsAdminUser = false ∧ malformedOther.RouteUserID = 1
    ∧ malformedOther.UserID = 2
    ∧ (updateUser Scenario.deps Scenario.store malformedOther).response
        = .BadRequest "unexpected end of JSON input"
    ∧ (updateUser Scenario.deps Scenario.store malformedOther).response ≠ .Forbidden := by
  decide

open api errors model in
/-- C9, amended. For every update request made by a non-administrator on an
existing user `user`: `Patch` and the store's `UpdateUser` are reached only if
the body decodes to a request `req`, `user.ID` equals the requester's ID and
`req` does not set `IsAdmin` to true. A request whose body does not decode is
answered `BadRequest` before any call. A request with a decodable body on
another user's ID is answered `Forbidden`, whatever its `IsAdmin`; one on the
requester's own ID whose `IsAdmin` is non-nil and true is answered
`BadRequest`; in both cases the only call made is `UserByID`. In all three
cases the storage state is the one before the request. -/
theorem updateUser_privilege_guard {σ ρ κ : Type} (deps : Deps σ ρ κ) (store : σ)
    (r : Request κ) (user : User ρ)
    (huser : deps.UserByID store r.RouteUserID = .ok (some user))
    (hstd : r.IsAdminUser = false) :
    ((∃ u, Call.UpdateUser u ∈ (updateUser deps store r).calls
          ∨ Call.Patch u ∈ (updateUser deps store r).calls) →
        ∃ req, r.Body = .ok req ∧ user.ID = r.UserID ∧ req.IsAdmin ≠ some true)
    ∧ (∀ err, r.Body = .error err →
        (updateUser deps store r).response = .BadRequest err.Error
        ∧ (updateUser deps store r).store = store
        ∧ (updateUser deps store r).calls = [])
    ∧ (∀ req, r.Body = .ok req → user.ID ≠ r.UserID →
        (updateUser deps store r).response = .Forbidden
        ∧ (updateUser deps store r).store = store
        ∧ (updateUser deps store r).calls = [.UserByID r.RouteUserID])
    ∧ (∀ req, r.Body = .ok req → user.ID = r.UserID → req.IsAdmin = some true →
        (updateUser deps store r).response
            = .BadRequest "only administrators can change permissions of standard users"
        ∧ (updateUser deps store r).store = store
        ∧ (updateUser deps store r).calls = [.UserByID r.RouteUserID]) := by
  refine ⟨?_, ?_, ?_, ?_⟩
  · cases hbody : r.Body with
    | error err =>
      rintro ⟨u, h⟩
      simp [updateUser, hbody] at h
    | ok req =>
      by_cases hid : user.ID = r.UserID
      · by_cases hadm : req.IsAdmin = some true
        · rintro ⟨u, h⟩
          simp [updateUser, hbody, huser, hstd, hid, hadm] at h
        · exact fun _ => ⟨req, rfl, hid, hadm⟩
      · rintro ⟨u, h⟩
        simp [updateUser, hbody, huser, hstd, hid] at h
  · intro err hbody
    simp [updateUser, hbody]
  · intro req hbody hid
    simp [updateUser, hbody, huser, hstd, hid]
  · intro req hbody hid hadm
    simp [updateUser, hbody, huser, hstd, hid, hadm]

open api errors model Scenario in
/-- C9, amended, on requests of the standard user 2: on user 1 with a
decodable body, answered `Forbidden` (also when it sets `IsAdmin`); on user 1
with a body that does not decode, answered `BadRequest`; on user 2 itself
setting `IsAdmin`, answered `BadRequest`; the storage state is unchanged each
time. -/
theorem updateUser_privilege_guard_witness :
    (Scenario.deps.UserByID Scenario.store renameOther.RouteUserID
          = .ok (some ⟨1, ⟨"admin", true⟩⟩)
      ∧ renameOther.IsAdminUser = false)
    ∧ (Scenario.deps.UserByID Scenario.store promoteSelf.RouteUserID
          = .ok (some ⟨2, ⟨"alice", false⟩⟩)
      ∧ promoteSelf.IsAdminUser = false)
    ∧ (updateUser Scenario.deps Scenario.store renameOther).response = .Forbidden
    ∧ (updateUser Scenario.deps Scenario.store renameOther).store = Scenario.store
    ∧ (updateUser Scenario.deps Scenario.store promoteOther).response = .Forbidden
    ∧ (updateUser Scenario.deps Scenario.store promoteOther).store = Scenario.store
    ∧ (updateUser Scenario.deps Scenario.store malformedOther).response
        = .BadRequest "unexpected end of JSON input"
    ∧ (updateUser Scenario.deps Scenario.store malformedOther).calls = []
    ∧ (updateUser Scenario.deps Scenario.store promoteSelf).response
        = .BadRequest "only administrators can change permissions of standard users"
    ∧ (updateUser Scenario.deps Scenario.store promoteSelf).store = Scenario.store :=
  have h1 := (updateUser_privilege_guard Scenario.deps Scenario.store renameOther
    ⟨1, ⟨"admin", true⟩⟩ (by decide) rfl).2.2.1 ⟨none, ⟨some "root"⟩⟩ rfl (by decide)
  have h2 := (updateUser_privilege_guard Scenario.deps Scenario.store promoteOther
    ⟨1, ⟨"admin", true⟩⟩ (by decide) rfl).2.2.1 ⟨some true, ⟨none⟩⟩ rfl (by decide)
  have h3 := (updateUser_privilege_guard Scenario.deps Scenario.store malformedOther
    ⟨1, ⟨"admin", true⟩⟩ (by decide) rfl).2.1 syntaxError rfl
  have h4 := (updateUser_privilege_guard Scenario.deps Scenario.store promoteSelf
    ⟨2, ⟨"alice", false⟩⟩ (by decide) rfl).2.2.2 ⟨some true, ⟨none⟩⟩ rfl (by decide) rfl
  ⟨⟨by decide, rfl⟩, ⟨by decide, rfl⟩, h1.1, h1.2.1, h2.1, h2.2.1, h3.1, h3.2.2, h4.1, h4.2.1⟩

/-- A permitted request, evaluated: the standard user 2 renames itself; the
handler validates, patches, updates the store and answers `Created`. -/
theorem updateUser_permitted_run :
    (api.updateUser Scenario.deps Scenario.store Scenario.renameSelf).response
      = .Created ⟨2, ⟨"bob", false⟩⟩
    ∧ (api.updateUser Scenario.deps Scenario.store Scenario.renameSelf).store
      = [⟨1, ⟨"admin", true⟩⟩, ⟨2, ⟨"bob", false⟩⟩]
    ∧ (api.updateUser Scenario.deps Scenario.store Scenario.renameSelf).calls
      = [.UserByID 2, .ValidateUserModification 2, .Patch ⟨2, ⟨"alice", false⟩⟩,
         .UpdateUser ⟨2, ⟨"bob", false⟩⟩] := by
  decide
